import Mathlib

/-!
Shallow embedding of the latency-hedging middleware in
`src/lib/hedge/src/lib.rs` (crate `hedge` of the proxy).

Modelling choices:

* `Poll T E` mirrors the futures-0.1 type `Poll<T, E> = Result<Async<T>, E>`:
  `Ok(Async::Ready(t))` is `.ready t`, `Ok(Async::NotReady)` is `.notReady`,
  `Err(e)` is `.err e`.
* Instants and durations are `Nat` milliseconds.  `clock::now()` calls inside a
  single poll invocation are identified (cooperative scheduling, no preemption
  inside a poll body).
* The original future, the hedge future, the delay timer and the service
  readiness check are external collaborators: the outcome of polling each of
  them during one invocation of `ResponseFuture::poll` is supplied by a
  `PollEnv`.  The original future can be polled twice in one invocation (the
  issuing branch loops back), so its outcome is indexed by a `Bool` that is
  `true` for the second inner iteration.
* The shared latency histogram (`Arc<Mutex<Rotating<Histogram>>>`, module
  `rotating`, not part of the sources under verification) is observed through
  the ghost output `recorded`: the list of durations added to the write buffer
  during the invocation.  Likewise `calls` lists the requests passed to
  `self.hedge.service.call` (hedge issuances), so that handler invocations can
  be counted.
* The `Policy` trait is a record of its two methods.  The service itself never
  produces a value inside `poll` other than via the environment, so it is not
  part of the per-call state.
-/

/-- Result of polling a futures-0.1 future: `Ok(Ready)`, `Ok(NotReady)` or
`Err`. -/
inductive Poll (T : Type) (E : Type) where
  | ready : T → Poll T E
  | notReady : Poll T E
  | err : E → Poll T E
deriving Repr, DecidableEq

/-- The `Policy<Request>` trait: `can_retry` and `clone_request`. -/
structure Policy (Request : Type) where
  can_retry : Request → Bool
  clone_request : Request → Option Request

/-- The `Hedge<P, S>` middleware struct.  The shared
`latency_histogram : Arc<Mutex<Rotating<Histogram<Ms>>>>` field lives in the
`rotating` module, outside the verified sources; its observable effect (the
samples added by each poll) is exposed by the ghost `recorded` output of
`pollStep` instead of being stored here.  `latency_percentile : f32` is
modelled as a rational number: `Hedge::new` performs no arithmetic on it. -/
structure Hedge (P S : Type) where
  policy : P
  service : S
  latency_percentile : ℚ

/-- Source `Hedge::new(policy, service, latency_percentile, rotation_period)`:
builds the shared rotating histogram (external, elided) and stores the
remaining fields unchanged.  The source performs no check on
`latency_percentile`. -/
def Hedge.new {P S : Type} (policy : P) (service : S)
    (latency_percentile : ℚ) (rotation_period : Nat) : Hedge P S :=
  let _ := rotation_period
  { policy := policy, service := service, latency_percentile := latency_percentile }

/-- Per-call state of `ResponseFuture<P, S, Request>`.  The in-flight original
future `orig_fut : S::Future` and the hedge handle carry no model state beyond
what the environment supplies, so they are elided; `hedge_fut : Option S::Future`
and `delay : Option Delay` are kept as options whose payloads are, respectively,
trivial and the absolute deadline instant the delay was created with. -/
structure ResponseFuture (Request : Type) where
  request : Option Request
  start : Nat
  hedge_fut : Option Unit
  delay : Option Nat
deriving Repr, DecidableEq

/-- Environment of one invocation of `ResponseFuture::poll`: the results the
external collaborators would give when polled during this invocation, and the
current instant. -/
structure PollEnv (Rsp E : Type) where
  now : Nat
  orig_poll : Bool → Poll Rsp E
  hedge_poll : Poll Rsp E
  ready_poll : Poll Unit E
  delay_poll : Poll Unit Unit

/-- Which branch produced a terminal result of one poll invocation (ghost
instrumentation; `none` when the invocation returned `NotReady`). -/
inductive Cause where
  | origDone : Cause
  | hedgeResponse : Cause
  | hedgeError : Cause
  | readinessError : Cause
deriving Repr, DecidableEq

/-- Result of one invocation of `ResponseFuture::poll`: the updated per-call
state, the returned `Poll`, and the ghost outputs — durations recorded into the
shared histogram, requests passed to `service.call`, and the branch that
terminated the call (if any). -/
structure StepOut (Rsp E Request : Type) where
  state : ResponseFuture Request
  result : Poll Rsp E
  recorded : List Nat
  calls : List Request
  cause : Option Cause
deriving Repr, DecidableEq

/-- One invocation of `ResponseFuture::poll` (lib.rs lines 150–218).  The
`loop` of the source runs at most twice per invocation: every branch returns
except hedge issuance, and after issuance the second iteration necessarily
returns (the hedge future now exists).  Both iterations are laid out here.
`self.record()` adds `clock::now() - self.start` to the write buffer; the hedge
completion branch records only when the poll result is `Ok` and ready, so a
hedge error returns without recording. -/
def pollStep {Rsp E Request : Type} (policy : Policy Request)
    (env : PollEnv Rsp E) (s : ResponseFuture Request) :
    StepOut Rsp E Request :=
  -- first inner iteration: poll the original future
  match env.orig_poll false with
  | .ready rsp => ⟨s, .ready rsp, [env.now - s.start], [], some .origDone⟩
  | .err e => ⟨s, .err e, [env.now - s.start], [], some .origDone⟩
  | .notReady =>
    match s.hedge_fut with
    | some _ =>
      -- the hedge future exists: return its result, recording only if ready
      (match env.hedge_poll with
       | .ready rsp => ⟨s, .ready rsp, [env.now - s.start], [], some .hedgeResponse⟩
       | .notReady => ⟨s, .notReady, [], [], none⟩
       | .err e => ⟨s, .err e, [], [], some .hedgeError⟩)
    | none =>
      match s.delay with
      | none =>
        -- no delay, can't retry
        ⟨s, .notReady, [], [], none⟩
      | some _ =>
        match env.delay_poll with
        | .notReady =>
          -- not time to retry yet
          ⟨s, .notReady, [], [], none⟩
        | .err _ =>
          -- timer error, don't retry
          ⟨s, .notReady, [], [], none⟩
        | .ready _ =>
          -- hedge timeout reached; try_ready!(self.hedge.poll_ready())
          match env.ready_poll with
          | .notReady => ⟨s, .notReady, [], [], none⟩
          | .err e => ⟨s, .err e, [], [], some .readinessError⟩
          | .ready _ =>
            match s.request with
            | none =>
              -- no cloned request, can't retry
              ⟨s, .notReady, [], [], none⟩
            | some req =>
              if policy.can_retry req then
                -- start the hedge request and loop back
                let s2 : ResponseFuture Request :=
                  { request := policy.clone_request req, start := s.start,
                    hedge_fut := some (), delay := s.delay }
                match env.orig_poll true with
                | .ready rsp =>
                  ⟨s2, .ready rsp, [env.now - s2.start], [req], some .origDone⟩
                | .err e =>
                  ⟨s2, .err e, [env.now - s2.start], [req], some .origDone⟩
                | .notReady =>
                  match env.hedge_poll with
                  | .ready rsp =>
                    ⟨s2, .ready rsp, [env.now - s2.start], [req], some .hedgeResponse⟩
                  | .notReady => ⟨s2, .notReady, [], [req], none⟩
                  | .err e => ⟨s2, .err e, [], [req], some .hedgeError⟩
              else
                -- policy says we can't retry: put the taken request back
                ⟨{ request := some req, start := s.start,
                   hedge_fut := s.hedge_fut, delay := s.delay },
                 .notReady, [], [], none⟩

/-- Source `Hedge::call(request)` (lib.rs lines 92–125).  `percentile_lookup`
is the result of `histo.read().percentile(self.latency_percentile, 10)` — the
histogram lives outside the verified sources, so its answer is a parameter.
Returns the fresh `ResponseFuture` together with the ghost list of requests
passed to `self.service.call` (exactly the original). -/
def Hedge.call {S Request : Type} (h : Hedge (Policy Request) S)
    (percentile_lookup : Option Nat) (now : Nat) (request : Request) :
    ResponseFuture Request × List Request :=
  let cloned := h.policy.clone_request request
  let delay := percentile_lookup.map (fun hedge_timeout => now + hedge_timeout)
  ({ request := cloned, start := now, hedge_fut := none, delay := delay },
   [request])

/-- Drive `ResponseFuture::poll` through a list of environments, collecting the
outcome of each invocation.  (The scheduler would stop at the first terminal
result; quantifying over all sequences only adds behaviours.) -/
def runPolls {Rsp E Request : Type} (policy : Policy Request) :
    ResponseFuture Request → List (PollEnv Rsp E) → List (StepOut Rsp E Request)
  | _, [] => []
  | s, env :: rest =>
    let o := pollStep policy env s
    o :: runPolls policy o.state rest

/-- Total number of requests handed to `service.call` across a sequence of
poll invocations. -/
def totalCalls {Rsp E Request : Type} (outs : List (StepOut Rsp E Request)) : Nat :=
  (outs.map (fun o => o.calls.length)).sum

/-! Concrete fixtures used by witnesses and counterexamples. -/

/-- A policy over `Nat` requests that always permits retry and clones by
identity. -/
def natPolicy : Policy Nat := ⟨fun _ => true, fun r => some r⟩

/-- A policy that always denies retry. -/
def denyPolicy : Policy Nat := ⟨fun _ => false, fun r => some r⟩

/-- A concrete `Hedge` over `natPolicy` with a trivial service handle. -/
def natHedge : Hedge (Policy Nat) Nat := Hedge.new natPolicy 0 50 60

/-- Environment in which nothing is ready. -/
def quietEnv : PollEnv Nat Nat :=
  ⟨160, fun _ => Poll.notReady, Poll.notReady, Poll.notReady, Poll.notReady⟩

/-- Environment in which the delay has fired and the service is ready. -/
def firedEnv : PollEnv Nat Nat :=
  ⟨160, fun _ => Poll.notReady, Poll.notReady, Poll.ready (), Poll.ready ()⟩

/-- Environment in which the delay has fired but the service reports
backpressure. -/
def backpressureEnv : PollEnv Nat Nat :=
  ⟨160, fun _ => Poll.notReady, Poll.notReady, Poll.notReady, Poll.ready ()⟩

/-- Environment in which polling the delay fails. -/
def timerFailEnv : PollEnv Nat Nat :=
  ⟨160, fun _ => Poll.notReady, Poll.notReady, Poll.notReady, Poll.err ()⟩

/-- Environment in which the original future completes with response 42. -/
def origReadyEnv : PollEnv Nat Nat :=
  ⟨160, fun _ => Poll.ready 42, Poll.notReady, Poll.notReady, Poll.notReady⟩

/-- Environment in which the hedge future fails with error 3. -/
def hedgeErrEnv : PollEnv Nat Nat :=
  ⟨200, fun _ => Poll.notReady, Poll.err 3, Poll.notReady, Poll.notReady⟩

/-- A per-call state holding a retained duplicate and an armed delay. -/
def sArmed : ResponseFuture Nat := ⟨some 7, 100, none, some 150⟩

/-- A per-call state in which a hedge request is already in flight. -/
def sHedging : ResponseFuture Nat := ⟨some 7, 100, some (), some 150⟩

/-! Invariant lemmas about a single poll invocation. -/

section StepLemmas

variable {Rsp E Request : Type}

/-- Polling never changes the recorded start timestamp. -/
lemma pollStep_start_eq (policy : Policy Request) (env : PollEnv Rsp E)
    (s : ResponseFuture Request) :
    (pollStep policy env s).state.start = s.start := by
  unfold pollStep
  repeat' split
  all_goals rfl

/-- Polling never changes the stored delay. -/
lemma pollStep_delay_eq (policy : Policy Request) (env : PollEnv Rsp E)
    (s : ResponseFuture Request) :
    (pollStep policy env s).state.delay = s.delay := by
  unfold pollStep
  repeat' split
  all_goals rfl

/-- An invocation with no terminating cause returned `NotReady`. -/
lemma pollStep_cause_none (policy : Policy Request) (env : PollEnv Rsp E)
    (s : ResponseFuture Request) (h : (pollStep policy env s).cause = none) :
    (pollStep policy env s).result = Poll.notReady := by
  unfold pollStep at h ⊢
  repeat' split at h <;> repeat' split
  all_goals simp_all

/-- Once the hedge future exists, polling leaves the state untouched and never
invokes the service. -/
lemma pollStep_hedge_some (policy : Policy Request) (env : PollEnv Rsp E)
    (s : ResponseFuture Request) (u : Unit) (h : s.hedge_fut = some u) :
    (pollStep policy env s).state = s ∧ (pollStep policy env s).calls = [] := by
  rcases h0 : env.orig_poll false with rsp | _ | e <;> simp [pollStep, h0, h] <;>
    rcases hp : env.hedge_poll with r2 | _ | e2 <;> simp [hp]

/-- With no delay and no hedge in flight, polling is pure waiting: the state is
untouched, the service is not invoked, and the call can end only through the
original future. -/
lemma pollStep_delay_none (policy : Policy Request) (env : PollEnv Rsp E)
    (s : ResponseFuture Request) (hd : s.delay = none) (hh : s.hedge_fut = none) :
    (pollStep policy env s).state = s ∧ (pollStep policy env s).calls = [] ∧
      ((pollStep policy env s).cause = none ∨
        (pollStep policy env s).cause = some Cause.origDone) := by
  rcases h0 : env.orig_poll false with rsp | _ | e <;> simp [pollStep, h0, hd, hh]

/-- With no retained duplicate and no hedge in flight, polling leaves the state
untouched and never invokes the service; the call can end only through the
original future or a readiness error. -/
lemma pollStep_request_none (policy : Policy Request) (env : PollEnv Rsp E)
    (s : ResponseFuture Request) (hr : s.request = none) (hh : s.hedge_fut = none) :
    (pollStep policy env s).state = s ∧ (pollStep policy env s).calls = [] ∧
      ((pollStep policy env s).cause = none ∨
        (pollStep policy env s).cause = some Cause.origDone ∨
        (pollStep policy env s).cause = some Cause.readinessError) := by
  rcases h0 : env.orig_poll false with rsp | _ | e <;> simp [pollStep, h0, hr, hh] <;>
    rcases hd : s.delay with _ | d <;> simp <;>
    rcases hdp : env.delay_poll with _ | _ | te <;> simp <;>
    rcases hrp : env.ready_poll with _ | _ | e2 <;> simp

/-- Under a policy that always denies retry, polling with no hedge in flight
leaves the state untouched (the taken duplicate is put back) and never invokes
the service. -/
lemma pollStep_no_retry (policy : Policy Request) (env : PollEnv Rsp E)
    (s : ResponseFuture Request) (hcr : ∀ r, policy.can_retry r = false)
    (hh : s.hedge_fut = none) :
    (pollStep policy env s).state = s ∧ (pollStep policy env s).calls = [] ∧
      ((pollStep policy env s).cause = none ∨
        (pollStep policy env s).cause = some Cause.origDone ∨
        (pollStep policy env s).cause = some Cause.readinessError) := by
  rcases s with ⟨sreq, sstart, shf, sdel⟩
  simp only at hh
  subst hh
  rcases h0 : env.orig_poll false with rsp | _ | e <;> simp [pollStep, h0] <;>
    rcases hd : sdel with _ | d <;> simp <;>
    rcases hdp : env.delay_poll with _ | _ | te <;> simp <;>
    rcases hrp : env.ready_poll with _ | _ | e2 <;> simp <;>
    rcases hreq : sreq with _ | req <;> simp [hcr]

/-- A failing delay timer leaves the state untouched and never invokes the
service; the call can end only through the original future. -/
lemma pollStep_timer_err (policy : Policy Request) (env : PollEnv Rsp E)
    (s : ResponseFuture Request) (u : Unit) (hdp : env.delay_poll = Poll.err u)
    (hh : s.hedge_fut = none) :
    (pollStep policy env s).state = s ∧ (pollStep policy env s).calls = [] ∧
      ((pollStep policy env s).cause = none ∨
        (pollStep policy env s).cause = some Cause.origDone) := by
  rcases h0 : env.orig_poll false with rsp | _ | e <;> simp [pollStep, h0, hh] <;>
    rcases hd : s.delay with _ | d <;> simp [hdp]

/-- At most one request is handed to the service per poll invocation. -/
lemma pollStep_calls_length (policy : Policy Request) (env : PollEnv Rsp E)
    (s : ResponseFuture Request) : (pollStep policy env s).calls.length ≤ 1 := by
  unfold pollStep
  repeat' split
  all_goals simp

/-- A poll invocation that hands a request to the service leaves the hedge
future in place. -/
lemma pollStep_calls_hedge (policy : Policy Request) (env : PollEnv Rsp E)
    (s : ResponseFuture Request) (h : (pollStep policy env s).calls ≠ []) :
    (pollStep policy env s).state.hedge_fut = some () := by
  unfold pollStep at h ⊢
  repeat' split at h <;> repeat' split
  all_goals simp_all

/-- Characterisation of latency recording: one invocation records exactly the
elapsed time when it completes through the original future or a hedge response,
and records nothing otherwise (pending, hedge error, readiness error). -/
lemma recorded_eq_cause (policy : Policy Request) (env : PollEnv Rsp E)
    (s : ResponseFuture Request) :
    (pollStep policy env s).recorded =
      (match (pollStep policy env s).cause with
       | some Cause.origDone => [env.now - s.start]
       | some Cause.hedgeResponse => [env.now - s.start]
       | _ => []) := by
  unfold pollStep
  repeat' split
  all_goals simp_all

end StepLemmas

/-! Invariants carried along a whole sequence of poll invocations. -/

section TraceLemmas

variable {Rsp E Request : Type}

/-- Preserved state invariants with per-step consequences lift from one
invocation to a whole poll sequence. -/
lemma runPolls_inv (policy : Policy Request) (P : ResponseFuture Request → Prop)
    (Q : StepOut Rsp E Request → Prop) :
    ∀ (envs : List (PollEnv Rsp E)) (s : ResponseFuture Request),
      (∀ env ∈ envs, ∀ t, P t →
        P (pollStep policy env t).state ∧ Q (pollStep policy env t)) →
      P s → ∀ o ∈ runPolls policy s envs, Q o ∧ P o.state := by
  intro envs
  induction envs with
  | nil =>
    intro s _ _ o ho
    simp [runPolls] at ho
  | cons env rest ih =>
    intro s hstep hP o ho
    simp only [runPolls] at ho
    rcases List.mem_cons.mp ho with rfl | ho
    · exact ⟨(hstep env (by simp) s hP).2, (hstep env (by simp) s hP).1⟩
    · exact ih (pollStep policy env s).state
        (fun e he t ht => hstep e (List.mem_cons_of_mem _ he) t ht)
        (hstep env (by simp) s hP).1 o ho

/-- After the hedge future exists, no later invocation in a poll sequence ever
hands another request to the service. -/
lemma runPolls_hedge_some_totalCalls (policy : Policy Request) :
    ∀ (envs : List (PollEnv Rsp E)) (s : ResponseFuture Request) (u : Unit),
      s.hedge_fut = some u → totalCalls (runPolls policy s envs) = 0 := by
  intro envs
  induction envs with
  | nil =>
    intro s u _
    simp [runPolls, totalCalls]
  | cons env rest ih =>
    intro s u h
    have hs := pollStep_hedge_some policy env s u h
    simp only [runPolls, totalCalls, List.map_cons, List.sum_cons]
    rw [hs.2]
    simpa [totalCalls] using ih (pollStep policy env s).state u (by rw [hs.1]; exact h)

/-- Starting with no hedge in flight, a whole poll sequence hands at most one
request to the service. -/
lemma runPolls_totalCalls_le (policy : Policy Request) :
    ∀ (envs : List (PollEnv Rsp E)) (s : ResponseFuture Request),
      s.hedge_fut = none → totalCalls (runPolls policy s envs) ≤ 1 := by
  intro envs
  induction envs with
  | nil =>
    intro s _
    simp [runPolls, totalCalls]
  | cons env rest ih =>
    intro s hh
    simp only [runPolls, totalCalls, List.map_cons, List.sum_cons]
    rcases hhf : (pollStep policy env s).state.hedge_fut with _ | u
    · have hc : (pollStep policy env s).calls = [] := by
        by_contra hne
        rw [pollStep_calls_hedge policy env s hne] at hhf
        exact Option.noConfusion hhf
      rw [hc]
      simpa [totalCalls] using ih (pollStep policy env s).state hhf
    · have h1 := pollStep_calls_length policy env s
      have h0 := runPolls_hedge_some_totalCalls policy rest
        (pollStep policy env s).state u hhf
      simp only [totalCalls] at h0
      omega

end TraceLemmas

/-! Claim theorems. -/

/-- Claim C1, counterexample: a hedge attempt that completes with an error does
NOT record a latency sample.  In the concrete state `sHedging` (hedge in
flight), with the original pending and the hedge future failing with error 3,
the poll returns the terminal error but the recorded-sample list is empty,
refuting the claim that every completed call records exactly one sample. -/
theorem c1_hedge_error_records_nothing :
    (pollStep natPolicy hedgeErrEnv sHedging).cause = some Cause.hedgeError ∧
    (pollStep natPolicy hedgeErrEnv sHedging).result = Poll.err 3 ∧
    (pollStep natPolicy hedgeErrEnv sHedging).recorded = [] :=
  ⟨rfl, rfl, rfl⟩

/-- Claim C1, amended: a pending poll records nothing; a poll that completes
through the original future (response or error) or through a hedge response
records exactly one sample, the elapsed time `now - start`; a poll that
completes through a hedge error or a readiness error records nothing. -/
theorem c1_single_record_per_completion {Rsp E Request : Type}
    (policy : Policy Request) (env : PollEnv Rsp E) (s : ResponseFuture Request) :
    ((pollStep policy env s).result = Poll.notReady →
        (pollStep policy env s).recorded = []) ∧
    (((pollStep policy env s).cause = some Cause.origDone ∨
        (pollStep policy env s).cause = some Cause.hedgeResponse) →
        (pollStep policy env s).recorded = [env.now - s.start]) ∧
    (((pollStep policy env s).cause = some Cause.hedgeError ∨
        (pollStep policy env s).cause = some Cause.readinessError) →
        (pollStep policy env s).recorded = []) := by
  unfold pollStep
  repeat' split
  all_goals simp_all

/-- Witness for C1 (amended): at a concrete environment where the original
completes at instant 160 on a call started at 100, exactly the sample 60 is
recorded. -/
theorem c1_single_record_per_completion_witness :
    (pollStep natPolicy origReadyEnv sArmed).cause = some Cause.origDone ∧
    (pollStep natPolicy origReadyEnv sArmed).recorded = [60] := by
  refine ⟨rfl, ?_⟩
  exact (c1_single_record_per_completion natPolicy origReadyEnv sArmed).2.1 (Or.inl rfl)

/-- Claim C2: if the percentile lookup at call time reports insufficient data,
`Hedge::call` constructs no delay, and then across every sequence of polls no
hedge future is ever created, the service is never invoked again, and the call
can terminate only through the original future. -/
theorem c2_insufficient_data_never_hedges {Rsp E S Request : Type}
    (h : Hedge (Policy Request) S) (now : Nat) (req : Request)
    (envs : List (PollEnv Rsp E)) :
    (Hedge.call h none now req).1.delay = none ∧
    ∀ o ∈ runPolls h.policy (Hedge.call h none now req).1 envs,
      o.state.hedge_fut = none ∧ o.calls = [] ∧
        (o.cause = none ∨ o.cause = some Cause.origDone) := by
  refine ⟨rfl, ?_⟩
  intro o ho
  refine (runPolls_inv h.policy
    (fun t => t.delay = none ∧ t.hedge_fut = none)
    (fun o => o.state.hedge_fut = none ∧ o.calls = [] ∧
      (o.cause = none ∨ o.cause = some Cause.origDone))
    envs (Hedge.call h none now req).1 ?_ ⟨rfl, rfl⟩ o ho).1
  intro env _ t ht
  have hs := pollStep_delay_none h.policy env t ht.1 ht.2
  refine ⟨?_, ?_, hs.2.1, hs.2.2⟩
  · rw [hs.1]; exact ht
  · rw [hs.1]; exact ht.2

/-- Witness for C2: a concrete no-data call over `natHedge`, polled once, keeps
the hedge future absent and invokes no service call. -/
theorem c2_insufficient_data_never_hedges_witness :
    (pollStep natHedge.policy quietEnv (Hedge.call natHedge none 100 7).1).calls = [] ∧
    (pollStep natHedge.policy quietEnv
      (Hedge.call natHedge none 100 7).1).state.hedge_fut = none := by
  have h := (c2_insufficient_data_never_hedges natHedge 100 7 [quietEnv]).2
    (pollStep natHedge.policy quietEnv (Hedge.call natHedge none 100 7).1)
    (by simp [runPolls])
  exact ⟨h.2.1, h.1⟩

/-- Claim C3: the downstream service is invoked at most twice per call — once
for the original at `Hedge::call` time and at most once more across every poll
sequence — and once a hedge future exists, no poll ever invokes the service
again. -/
theorem c3_at_most_one_extra_attempt {Rsp E S Request : Type}
    (h : Hedge (Policy Request) S) (lookup : Option Nat) (now : Nat) (req : Request)
    (envs : List (PollEnv Rsp E)) :
    (Hedge.call h lookup now req).2.length = 1 ∧
    (Hedge.call h lookup now req).2.length +
        totalCalls (runPolls h.policy (Hedge.call h lookup now req).1 envs) ≤ 2 ∧
    ∀ (env : PollEnv Rsp E) (t : ResponseFuture Request) (u : Unit),
      t.hedge_fut = some u → (pollStep h.policy env t).calls = [] := by
  refine ⟨rfl, ?_, ?_⟩
  · have h1 : (Hedge.call h lookup now req).2.length = 1 := rfl
    have h2 := runPolls_totalCalls_le h.policy envs (Hedge.call h lookup now req).1 rfl
    omega
  · intro env t u ht
    exact (pollStep_hedge_some h.policy env t u ht).2

/-- Witness for C3: with a hedge already in flight, a concrete poll invokes no
service call. -/
theorem c3_at_most_one_extra_attempt_witness :
    (pollStep natHedge.policy quietEnv sHedging).calls = [] :=
  (c3_at_most_one_extra_attempt natHedge none 100 7 []).2.2 quietEnv sHedging () rfl

/-- Claim C4, counterexample: `Hedge::new` accepts the percentile 150, which
lies outside (0,100], and stores it unchecked — construction succeeds with the
out-of-range value, refuting the claim that the constructor validates the
percentile. -/
theorem c4_percentile_unvalidated :
    (Hedge.new natPolicy (0 : Nat) (150 : ℚ) 60).latency_percentile = 150 ∧
      ¬ (150 : ℚ) ≤ 100 :=
  ⟨rfl, by norm_num⟩

/-- Claim C4, amended: `Hedge::new` performs no validation at all — for every
percentile value, including values outside (0,100], construction succeeds and
stores the policy, service and percentile unchanged. -/
theorem c4_new_stores_fields {P S : Type} (policy : P) (service : S)
    (latency_percentile : ℚ) (rotation_period : Nat) :
    (Hedge.new policy service latency_percentile rotation_period).policy = policy ∧
    (Hedge.new policy service latency_percentile rotation_period).service = service ∧
    (Hedge.new policy service latency_percentile rotation_period).latency_percentile =
      latency_percentile :=
  ⟨rfl, rfl, rfl⟩

/-- Claim C5: under a policy that always denies retry, a poll reaching the
denial branch (delay fired, service ready, duplicate retained) puts the
duplicate back, changes nothing else and returns `NotReady`; and across every
poll sequence no hedge future is ever created and the service is never
invoked. -/
theorem c5_denied_policy_never_hedges {Rsp E Request : Type} (policy : Policy Request)
    (hcr : ∀ r, policy.can_retry r = false) :
    (∀ (env : PollEnv Rsp E) (s : ResponseFuture Request) (d : Nat) (req : Request),
        s.hedge_fut = none → s.delay = some d → s.request = some req →
        env.orig_poll false = Poll.notReady → env.delay_poll = Poll.ready () →
        env.ready_poll = Poll.ready () →
        pollStep policy env s = ⟨s, Poll.notReady, [], [], none⟩) ∧
    (∀ (s : ResponseFuture Request) (envs : List (PollEnv Rsp E)),
        s.hedge_fut = none →
        ∀ o ∈ runPolls policy s envs, o.calls = [] ∧ o.state.hedge_fut = none) := by
  constructor
  · intro env s d req hh hd hreq h0 hdp hrp
    rcases s with ⟨sreq, sstart, shf, sdel⟩
    simp only at hh hd hreq
    subst hh hd hreq
    simp [pollStep, h0, hdp, hrp, hcr]
  · intro s envs hh o ho
    have key := runPolls_inv policy (fun t => t.hedge_fut = none)
      (fun o => o.calls = [] ∧ o.state.hedge_fut = none)
      envs s ?_ hh o ho
    · exact key.1
    · intro env _ t ht
      have hs := pollStep_no_retry policy env t hcr ht
      exact ⟨by rw [hs.1]; exact ht, hs.2.1, by rw [hs.1]; exact ht⟩

/-- Witness for C5: under `denyPolicy`, a concrete poll with the delay fired
and the service ready puts the duplicate back and returns `NotReady`. -/
theorem c5_denied_policy_never_hedges_witness :
    denyPolicy.can_retry 7 = false ∧
    pollStep denyPolicy firedEnv sArmed = ⟨sArmed, Poll.notReady, [], [], none⟩ :=
  ⟨rfl, (c5_denied_policy_never_hedges denyPolicy (fun _ => rfl)).1 firedEnv sArmed
    150 7 rfl rfl rfl rfl rfl rfl⟩

/-- Claim C6, counterexample: with no retained duplicate and the delay fired, a
poll does not always return Pending — a readiness failure is surfaced as the
terminal error (cause `readinessError`), so the call does not resolve via the
original operation there. -/
theorem c6_readiness_error_escapes :
    (pollStep natPolicy
        (⟨160, fun _ => Poll.notReady, Poll.notReady, Poll.err 9, Poll.ready ()⟩ :
          PollEnv Nat Nat)
        (⟨none, 100, none, some 150⟩ : ResponseFuture Nat)).result = Poll.err 9 ∧
    (pollStep natPolicy
        (⟨160, fun _ => Poll.notReady, Poll.notReady, Poll.err 9, Poll.ready ()⟩ :
          PollEnv Nat Nat)
        (⟨none, 100, none, some 150⟩ : ResponseFuture Nat)).result ≠ Poll.notReady ∧
    (pollStep natPolicy
        (⟨160, fun _ => Poll.notReady, Poll.notReady, Poll.err 9, Poll.ready ()⟩ :
          PollEnv Nat Nat)
        (⟨none, 100, none, some 150⟩ : ResponseFuture Nat)).cause =
          some Cause.readinessError :=
  ⟨rfl, by decide, rfl⟩

/-- Claim C6, amended: if `clone_request` returns none at call time the
retained duplicate is absent, and whenever the duplicate is absent (never
clonable or already consumed) no hedge future is ever created and the service
is never invoked, across every poll sequence; each such poll either returns
`NotReady` or terminates through the original future or a readiness error. -/
theorem c6_no_duplicate_never_hedges {Rsp E S Request : Type} (policy : Policy Request) :
    (∀ (h : Hedge (Policy Request) S) (lookup : Option Nat) (now : Nat) (req : Request),
        h.policy.clone_request req = none →
        (Hedge.call h lookup now req).1.request = none) ∧
    (∀ (s : ResponseFuture Request) (envs : List (PollEnv Rsp E)),
        s.request = none → s.hedge_fut = none →
        ∀ o ∈ runPolls policy s envs,
          o.calls = [] ∧ o.state.hedge_fut = none ∧ o.state.request = none ∧
            (o.cause = none ∨ o.cause = some Cause.origDone ∨
              o.cause = some Cause.readinessError) ∧
            (o.cause = none → o.result = Poll.notReady)) := by
  constructor
  · intro h lookup now req hclone
    simp [Hedge.call, hclone]
  · intro s envs hr hh o ho
    refine (runPolls_inv policy (fun t => t.request = none ∧ t.hedge_fut = none)
      (fun o => o.calls = [] ∧ o.state.hedge_fut = none ∧ o.state.request = none ∧
        (o.cause = none ∨ o.cause = some Cause.origDone ∨
          o.cause = some Cause.readinessError) ∧
        (o.cause = none → o.result = Poll.notReady))
      envs s ?_ ⟨hr, hh⟩ o ho).1
    intro env _ t ht
    have hs := pollStep_request_none policy env t ht.1 ht.2
    refine ⟨⟨by rw [hs.1]; exact ht.1, by rw [hs.1]; exact ht.2⟩,
      hs.2.1, by rw [hs.1]; exact ht.2, by rw [hs.1]; exact ht.1, hs.2.2,
      pollStep_cause_none policy env t⟩

/-- Witness for C6 (amended): a concrete duplicate-less call polled once after
the delay fired creates no hedge and invokes no service call. -/
theorem c6_no_duplicate_never_hedges_witness :
    (pollStep natPolicy firedEnv (⟨none, 100, none, some 150⟩ : ResponseFuture Nat)).calls
      = [] ∧
    (pollStep natPolicy firedEnv
      (⟨none, 100, none, some 150⟩ : ResponseFuture Nat)).state.hedge_fut = none := by
  have h := (c6_no_duplicate_never_hedges (S := Nat) natPolicy).2
    ⟨none, 100, none, some 150⟩ [firedEnv] rfl rfl
    (pollStep natPolicy firedEnv ⟨none, 100, none, some 150⟩) (by simp [runPolls])
  exact ⟨h.1, h.2.1⟩

/-- Claim C7: when the delay has fired, the original is pending and no hedge
exists, service readiness gates issuance — `NotReady` readiness defers
everything and returns `NotReady`; a readiness error is returned immediately as
the call's terminal result. -/
theorem c7_readiness_gates_hedge {Rsp E Request : Type} (policy : Policy Request)
    (env : PollEnv Rsp E) (s : ResponseFuture Request) (d : Nat)
    (hh : s.hedge_fut = none) (hd : s.delay = some d)
    (h0 : env.orig_poll false = Poll.notReady) (hdp : env.delay_poll = Poll.ready ()) :
    (env.ready_poll = Poll.notReady →
        pollStep policy env s = ⟨s, Poll.notReady, [], [], none⟩) ∧
    ∀ e, env.ready_poll = Poll.err e →
        pollStep policy env s = ⟨s, Poll.err e, [], [], some Cause.readinessError⟩ := by
  constructor
  · intro hrp
    simp [pollStep, h0, hh, hd, hdp, hrp]
  · intro e hrp
    simp [pollStep, h0, hh, hd, hdp, hrp]

/-- Witness for C7: a concrete readiness error 9 after the fired delay is the
call's immediate terminal result. -/
theorem c7_readiness_gates_hedge_witness :
    pollStep natPolicy
        (⟨160, fun _ => Poll.notReady, Poll.notReady, Poll.err 9, Poll.ready ()⟩ :
          PollEnv Nat Nat) sArmed =
      ⟨sArmed, Poll.err 9, [], [], some Cause.readinessError⟩ :=
  (c7_readiness_gates_hedge natPolicy
    ⟨160, fun _ => Poll.notReady, Poll.notReady, Poll.err 9, Poll.ready ()⟩
    sArmed 150 rfl rfl rfl rfl).2 9 rfl

/-- Claim C8: a delay-timer failure is non-fatal — that poll returns `NotReady`
(not an error), issues no hedge and changes nothing; and if the timer keeps
failing whenever re-polled, no hedge is ever issued across the whole sequence
and the call can terminate only through the original future. -/
theorem c8_timer_error_nonfatal {Rsp E Request : Type} (policy : Policy Request) :
    (∀ (env : PollEnv Rsp E) (s : ResponseFuture Request) (d : Nat),
        s.hedge_fut = none → s.delay = some d →
        env.orig_poll false = Poll.notReady → env.delay_poll = Poll.err () →
        pollStep policy env s = ⟨s, Poll.notReady, [], [], none⟩) ∧
    (∀ (s : ResponseFuture Request) (envs : List (PollEnv Rsp E)),
        s.hedge_fut = none → (∀ env ∈ envs, env.delay_poll = Poll.err ()) →
        ∀ o ∈ runPolls policy s envs,
          o.calls = [] ∧ o.state.hedge_fut = none ∧
            (o.cause = none ∨ o.cause = some Cause.origDone)) := by
  constructor
  · intro env s d hh hd h0 hdp
    simp [pollStep, h0, hh, hd, hdp]
  · intro s envs hh hdp o ho
    refine (runPolls_inv policy (fun t => t.hedge_fut = none)
      (fun o => o.calls = [] ∧ o.state.hedge_fut = none ∧
        (o.cause = none ∨ o.cause = some Cause.origDone))
      envs s ?_ hh o ho).1
    intro env henv t ht
    have hs := pollStep_timer_err policy env t () (hdp env henv) ht
    exact ⟨by rw [hs.1]; exact ht, hs.2.1, by rw [hs.1]; exact ht, hs.2.2⟩

/-- Witness for C8: a concrete timer failure yields `NotReady` with the state
untouched. -/
theorem c8_timer_error_nonfatal_witness :
    pollStep natPolicy timerFailEnv sArmed = ⟨sArmed, Poll.notReady, [], [], none⟩ :=
  (c8_timer_error_nonfatal natPolicy).1 timerFailEnv sArmed 150 rfl rfl rfl rfl

/-- Claim C9: whenever the original future completes — with a response or an
error — the elapsed time `now - start` is recorded and exactly the original's
result is returned verbatim, whether or not a hedge is outstanding; and every
origin-terminated poll returns one of the original future's own poll results. -/
theorem c9_original_completion_verbatim {Rsp E Request : Type} (policy : Policy Request)
    (env : PollEnv Rsp E) (s : ResponseFuture Request) :
    (∀ rsp, env.orig_poll false = Poll.ready rsp →
        (pollStep policy env s).result = Poll.ready rsp ∧
        (pollStep policy env s).recorded = [env.now - s.start]) ∧
    (∀ e, env.orig_poll false = Poll.err e →
        (pollStep policy env s).result = Poll.err e ∧
        (pollStep policy env s).recorded = [env.now - s.start]) ∧
    ((pollStep policy env s).cause = some Cause.origDone →
        (pollStep policy env s).recorded = [env.now - s.start] ∧
          ((pollStep policy env s).result = env.orig_poll false ∨
            (pollStep policy env s).result = env.orig_poll true)) := by
  refine ⟨?_, ?_, ?_⟩
  · intro rsp h
    simp [pollStep, h]
  · intro e h
    simp [pollStep, h]
  · intro hc
    unfold pollStep at hc ⊢
    repeat' split at hc
    all_goals simp_all

/-- Witness for C9: a concrete original completion at instant 160 on a call
started at 100 returns the response verbatim and records the sample 60. -/
theorem c9_original_completion_verbatim_witness :
    (pollStep natPolicy origReadyEnv sArmed).result = Poll.ready 42 ∧
    (pollStep natPolicy origReadyEnv sArmed).recorded = [60] :=
  (c9_original_completion_verbatim natPolicy origReadyEnv sArmed).1 42 rfl

/-- Claim C10: when the delay has fired, no hedge exists and readiness reports
backpressure, the poll returns `NotReady` and all per-call state is unchanged —
the retained duplicate, start timestamp and delay are untouched and no hedge
future is created, so a later poll can still issue the hedge. -/
theorem c10_backpressure_preserves_state {Rsp E Request : Type} (policy : Policy Request)
    (env : PollEnv Rsp E) (s : ResponseFuture Request) (d : Nat)
    (h0 : env.orig_poll false = Poll.notReady) (hh : s.hedge_fut = none)
    (hd : s.delay = some d) (hdp : env.delay_poll = Poll.ready ())
    (hrp : env.ready_poll = Poll.notReady) :
    (pollStep policy env s).state.request = s.request ∧
    (pollStep policy env s).state.start = s.start ∧
    (pollStep policy env s).state.delay = s.delay ∧
    (pollStep policy env s).state.hedge_fut = none ∧
    (pollStep policy env s).calls = [] ∧
    (pollStep policy env s).result = Poll.notReady := by
  simp [pollStep, h0, hh, hd, hdp, hrp]

/-- Witness for C10: a concrete backpressure poll keeps the duplicate and
returns `NotReady`. -/
theorem c10_backpressure_preserves_state_witness :
    (pollStep natPolicy backpressureEnv sArmed).state.request = some 7 ∧
    (pollStep natPolicy backpressureEnv sArmed).result = Poll.notReady := by
  have h := c10_backpressure_preserves_state natPolicy backpressureEnv sArmed 150
    rfl rfl rfl rfl rfl
  exact ⟨h.1, h.2.2.2.2.2⟩
